import Mathlib

/-!
Shallow embedding of the standardized error/validation/response core of the
`web_starter_kit` repository: the error taxonomy (`src/lib/errors.ts`), the
runtime type guards (`src/lib/guards.ts`), the validation helpers
(`src/lib/validation.ts`) and the API response envelope constructors
(`src/types/api.ts`), together with theorems settling the frozen claims
about them.

Modelling conventions:
  * A JavaScript runtime value is a `JsValue` (null, undefined, boolean,
    number, string, array, plain object, or an error-class instance).
  * A JavaScript number is a `JSNum`: the NaN sentinel, the two infinities,
    or a finite value carried as a rational.  The claims never depend on
    rounding, so exact rationals embed the finite doubles that occur.
  * Functions that `throw` are embedded with `Except JsErrorValue` results:
    `.error e` is a throw of the error object `e`.
  * Strings are Lean `String`s; the JS string operations used by the code
    (`toLowerCase`, `trim`, `length`, the email regex test) are embedded on
    the underlying character list, with ASCII case mapping.
-/

/-- Embedding of a JavaScript number: the NaN sentinel, the infinities, or a
finite value (held exactly as a rational). -/
inductive JSNum where
  | nan
  | posInf
  | negInf
  | fin (q : ℚ)
deriving DecidableEq

/-- JS `Number.isNaN`. -/
def JSNum.isNaN : JSNum → Bool
  | .nan => true
  | _ => false

/-- The JS `<` comparison on numbers: any comparison with NaN is false;
the infinities compare in the usual way; finite values compare as rationals. -/
def JSNum.ltJS : JSNum → JSNum → Bool
  | .nan, _ => false
  | _, .nan => false
  | .posInf, _ => false
  | _, .posInf => true
  | _, .negInf => false
  | .negInf, _ => true
  | .fin a, .fin b => decide (a < b)

/-- The JS `>` comparison on numbers (`a > b` holds exactly when `b < a`). -/
def JSNum.gtJS (a b : JSNum) : Bool := JSNum.ltJS b a

/-- Simplified rendering of a number into a template string (`${n}`): exact
for NaN, the infinities and integral values, which are the only renderings
any claim touches; non-integral rationals use the Lean rational printer. -/
def JSNum.render : JSNum → String
  | .nan => "NaN"
  | .posInf => "Infinity"
  | .negInf => "-Infinity"
  | .fin q => if q.den = 1 then toString q.num else toString q

/-- Which constructor (class) produced an error object: the host `Error`
class, the base `AppError` of `src/lib/errors.ts`, or one of its five
concrete subclasses. -/
inductive ErrorClass where
  | error
  | appError
  | validationError
  | notFoundError
  | unauthorizedError
  | forbiddenError
  | conflictError
deriving DecidableEq

/-- An error instance as observable at runtime: its class (for `instanceof`
tests), its `name` and `message`, and the `code`/`statusCode` fields that
`AppError` adds (`none` on a plain host `Error`, which lacks them). -/
structure JsErrorValue where
  cls : ErrorClass
  name : String
  message : String
  code : Option String
  statusCode : Option Nat
deriving DecidableEq

/-- Construction `new Error(message)` of the host environment. -/
def mkError (message : String) : JsErrorValue :=
  ⟨.error, "Error", message, none, none⟩

/-- Construction `new AppError(message, code, statusCode)`
(`src/lib/errors.ts`): sets `name` to "AppError" and stores the given
`code` and `statusCode`. -/
def mkAppError (message : String) (code : String) (statusCode : Nat) : JsErrorValue :=
  ⟨.appError, "AppError", message, some code, some statusCode⟩

/-- Construction `new ValidationError(message)`: calls
`super(message, 'VALIDATION_ERROR', 400)` and sets `name`. -/
def mkValidationError (message : String) : JsErrorValue :=
  ⟨.validationError, "ValidationError", message, some "VALIDATION_ERROR", some 400⟩

/-- Construction `new NotFoundError(resource)`: calls
`super(`resource` ++ " not found", 'NOT_FOUND', 404)` and sets `name`. -/
def mkNotFoundError (resource : String) : JsErrorValue :=
  ⟨.notFoundError, "NotFoundError", resource ++ " not found", some "NOT_FOUND", some 404⟩

/-- Construction `new UnauthorizedError(message?)`: the message parameter
defaults to "Unauthorized"; calls `super(message, 'UNAUTHORIZED', 401)`. -/
def mkUnauthorizedError (message : Option String) : JsErrorValue :=
  ⟨.unauthorizedError, "UnauthorizedError", message.getD "Unauthorized", some "UNAUTHORIZED", some 401⟩

/-- Construction `new ForbiddenError(message?)`: the message parameter
defaults to "Forbidden"; calls `super(message, 'FORBIDDEN', 403)`. -/
def mkForbiddenError (message : Option String) : JsErrorValue :=
  ⟨.forbiddenError, "ForbiddenError", message.getD "Forbidden", some "FORBIDDEN", some 403⟩

/-- Construction `new ConflictError(message)`: calls
`super(message, 'CONFLICT', 409)` and sets `name`. -/
def mkConflictError (message : String) : JsErrorValue :=
  ⟨.conflictError, "ConflictError", message, some "CONFLICT", some 409⟩

/-- Embedding of a JavaScript runtime value. -/
inductive JsValue where
  | nullV
  | undef
  | bool (b : Bool)
  | num (n : JSNum)
  | str (s : String)
  | arr (elems : List JsValue)
  | obj (fields : List (String × JsValue))
  | errVal (e : JsErrorValue)

/-- Which classes sit under `AppError` in the prototype chain: every class
of `src/lib/errors.ts` extends it; the host `Error` class does not. -/
def ErrorClass.extendsAppError : ErrorClass → Bool
  | .error => false
  | _ => true

/-- Embedding of `isAppError(error)` (`src/lib/errors.ts`): `error instanceof AppError`. -/
def isAppError : JsValue → Bool
  | .errVal e => e.cls.extendsAppError
  | _ => false

/-- Embedding of `isNotNull(value)` (`src/lib/guards.ts`):
`value !== null && value !== undefined`. -/
def isNotNull : JsValue → Bool
  | .nullV => false
  | .undef => false
  | _ => true

/-- Embedding of `isDefined(value)` (`src/lib/guards.ts`): `value !== undefined`. -/
def isDefined : JsValue → Bool
  | .undef => false
  | _ => true

/-- Embedding of `isString(value)` (`src/lib/guards.ts`): `typeof value === 'string'`. -/
def isString : JsValue → Bool
  | .str _ => true
  | _ => false

/-- Embedding of `isNumber(value)` (`src/lib/guards.ts`):
`typeof value === 'number' && !Number.isNaN(value)`. -/
def isNumber : JsValue → Bool
  | .num n => !n.isNaN
  | _ => false

/-! JS string operations used by `validation.ts` -/

/-- The characters the JS regex class `\s` matches (ECMAScript WhiteSpace
and LineTerminator), also the set `String.prototype.trim` strips. -/
def jsWsChars : List Char :=
  [' ', '\t', '\n', '\r', '\x0b', '\x0c',
   '\u00A0', '\u1680', '\u2000', '\u2001', '\u2002', '\u2003', '\u2004',
   '\u2005', '\u2006', '\u2007', '\u2008', '\u2009', '\u200A', '\u2028',
   '\u2029', '\u202F', '\u205F', '\u3000', '\uFEFF']

/-- Whether a character is JS whitespace. -/
def jsWs (c : Char) : Bool := jsWsChars.contains c

/-- The case-mapping pairs of `String.prototype.toLowerCase` on the ASCII
range (the only range the claims exercise). -/
def lowerPairs : List (Char × Char) :=
  [('A', 'a'), ('B', 'b'), ('C', 'c'), ('D', 'd'), ('E', 'e'), ('F', 'f'),
   ('G', 'g'), ('H', 'h'), ('I', 'i'), ('J', 'j'), ('K', 'k'), ('L', 'l'),
   ('M', 'm'), ('N', 'n'), ('O', 'o'), ('P', 'p'), ('Q', 'q'), ('R', 'r'),
   ('S', 's'), ('T', 't'), ('U', 'u'), ('V', 'v'), ('W', 'w'), ('X', 'x'),
   ('Y', 'y'), ('Z', 'z')]

/-- Per-character lower-casing: an upper-case ASCII letter maps to its
lower-case pair, every other character is unchanged. -/
def jsLowerChar (c : Char) : Char :=
  ((lowerPairs.find? (fun p => p.1 == c)).map Prod.snd).getD c

/-- Embedding of `String.prototype.toLowerCase` (ASCII model). -/
def jsLower (s : String) : String := ⟨s.toList.map jsLowerChar⟩

/-- Embedding of `String.prototype.trim` on the character list: strip leading and
trailing JS whitespace. -/
def jsTrimList (l : List Char) : List Char :=
  ((l.dropWhile jsWs).reverse.dropWhile jsWs).reverse

/-- Embedding of `String.prototype.trim`. -/
def jsTrim (s : String) : String := ⟨jsTrimList s.toList⟩

/-- A character the regex class `[^\s@]` matches: not whitespace and
not an at-sign. -/
def atomChar (c : Char) : Bool := !jsWs c && !(c == '@')

/-- Whether a list has a dot strictly inside it after the first position:
the scan of the positions 1.. of the enclosing list (see `innerDot`). -/
def innerDotAux : List Char → Bool
  | [] => false
  | c :: cs => (c == '.' && !cs.isEmpty) || innerDotAux cs

/-- Whether the list has a '.' at some position `i` with `1 ≤ i` and
`i + 1 < length`: exactly when it splits as `b ++ '.' :: c` with `b`, `c`
nonempty. -/
def innerDot : List Char → Bool
  | [] => false
  | _ :: cs => innerDotAux cs

/-- Whether the part after the '@' matches `[^\s@]+\.[^\s@]+$`: every
character is in `[^\s@]` ('.' included), and some '.' lies strictly inside
(so that a nonempty atom run precedes and follows it). -/
def emailDomain (l : List Char) : Bool := l.all atomChar && innerDot l

/-- Match of `[^\s@]*@` followed by the domain part, used after the first
local character: consume atom characters up to the '@' (the atom class
excludes '@', so the first '@' is the separator), then check the domain. -/
def emailLocalTail : List Char → Bool
  | [] => false
  | c :: cs => if c == '@' then emailDomain cs else atomChar c && emailLocalTail cs

/-- Full-string match of `/^[^\s@]+@[^\s@]+\.[^\s@]+$/`: at least one atom
character, then `emailLocalTail`. -/
def emailMatchList : List Char → Bool
  | [] => false
  | c :: cs => atomChar c && emailLocalTail cs

/-- Embedding of `emailRegex.test(email)` for the regex of `validateEmail`. -/
def emailRegexTest (s : String) : Bool := emailMatchList s.toList

/-! Validation helpers (`src/lib/validation.ts`) -/

/-- Embedding of `validateRequired(value, fieldName)`: throws
`ValidationError(fieldName + " is required")` when `isNotNull` fails,
otherwise returns the value. -/
def validateRequired (value : JsValue) (fieldName : String) : Except JsErrorValue JsValue :=
  if isNotNull value then .ok value
  else .error (mkValidationError (fieldName ++ " is required"))

/-- Embedding of `validateEmail(email)`: throws if not a string, throws if the email
regex does not match, otherwise returns `email.toLowerCase().trim()`. -/
def validateEmail (email : JsValue) : Except JsErrorValue JsValue :=
  match email with
  | .str s =>
      if emailRegexTest s then .ok (.str (jsTrim (jsLower s)))
      else .error (mkValidationError "Invalid email format")
  | _ => .error (mkValidationError "Email must be a string")

/-- Modelled from the spec: success of the host `new URL(url)` constructor
(not part of the repository), per the spec's "cannot be parsed as a
well-formed absolute URL" — a scheme (letter, then letters, digits, '+',
'-' or '.') followed by ':'.  The claims do not depend on which strings
parse, only on how both outcomes are handled. -/
def canParseURL (s : String) : Bool :=
  match s.toList with
  | [] => false
  | c :: cs =>
      c.isAlpha &&
      ((cs.dropWhile (fun d => d.isAlphanum || d == '+' || d == '-' || d == '.')).head? == some ':')

/-- Embedding of `validateUrl(url)`: throws if not a string; tries `new URL(url)` and
returns the original string on success; converts the parse failure into a
`ValidationError('Invalid URL format')`. -/
def validateUrl (url : JsValue) : Except JsErrorValue JsValue :=
  match url with
  | .str s =>
      if canParseURL s then .ok (.str s)
      else .error (mkValidationError "Invalid URL format")
  | _ => .error (mkValidationError "URL must be a string")

/-- The `{ min?, max? }` constraints object of `validateStringLength` and
`validateNumberRange` (`none` = the property is absent). -/
structure RangeConstraints where
  min : Option JSNum
  max : Option JSNum

/-- The `constraints.max` check and fall-through of `validateStringLength`. -/
def stringLengthMaxCheck (s : String) (fieldName : String) (mx : Option JSNum) : Except JsErrorValue JsValue :=
  match mx with
  | some m =>
      if JSNum.gtJS (.fin (s.toList.length : ℚ)) m then
        .error (mkValidationError (fieldName ++ " must be at most " ++ m.render ++ " characters"))
      else .ok (.str s)
  | none => .ok (.str s)

/-- Embedding of `validateStringLength(value, fieldName, constraints)`: throws if not a
string, then checks `value.length < constraints.min` and
`value.length > constraints.max` in order, returning the string unchanged
when both pass. -/
def validateStringLength (value : JsValue) (fieldName : String) (c : RangeConstraints) : Except JsErrorValue JsValue :=
  match value with
  | .str s =>
      match c.min with
      | some m =>
          if JSNum.ltJS (.fin (s.toList.length : ℚ)) m then
            .error (mkValidationError (fieldName ++ " must be at least " ++ m.render ++ " characters"))
          else stringLengthMaxCheck s fieldName c.max
      | none => stringLengthMaxCheck s fieldName c.max
  | _ => .error (mkValidationError (fieldName ++ " must be a string"))

/-- The `constraints.max` check and fall-through of `validateNumberRange`. -/
def numberMaxCheck (n : JSNum) (fieldName : String) (mx : Option JSNum) : Except JsErrorValue JsValue :=
  match mx with
  | some m =>
      if JSNum.gtJS n m then
        .error (mkValidationError (fieldName ++ " must be at most " ++ m.render))
      else .ok (.num n)
  | none => .ok (.num n)

/-- Embedding of `validateNumberRange(value, fieldName, constraints)`: throws if
`typeof value !== 'number' || Number.isNaN(value)`, then checks
`value < constraints.min` and `value > constraints.max` in order,
returning the number unchanged when both pass. -/
def validateNumberRange (value : JsValue) (fieldName : String) (c : RangeConstraints) : Except JsErrorValue JsValue :=
  match value with
  | .num n =>
      if n.isNaN then .error (mkValidationError (fieldName ++ " must be a number"))
      else
        match c.min with
        | some m =>
            if JSNum.ltJS n m then
              .error (mkValidationError (fieldName ++ " must be at least " ++ m.render))
            else numberMaxCheck n fieldName c.max
        | none => numberMaxCheck n fieldName c.max
  | _ => .error (mkValidationError (fieldName ++ " must be a number"))

/-- Embedding of `validateEnum(value, fieldName, allowedValues)`: throws if not a string,
throws (listing the allowed values joined by ", ") if not included in
`allowedValues`, otherwise returns the value. -/
def validateEnum (value : JsValue) (fieldName : String) (allowedValues : List String) : Except JsErrorValue JsValue :=
  match value with
  | .str s =>
      if allowedValues.contains s then .ok (.str s)
      else
        .error (mkValidationError
          (fieldName ++ " must be one of: " ++ String.intercalate ", " allowedValues))
  | _ => .error (mkValidationError (fieldName ++ " must be a string"))

/-- The `{ minLength?, maxLength? }` constraints object of `validateArray`. -/
structure ArrayConstraints where
  minLength : Option JSNum
  maxLength : Option JSNum

/-- The `constraints?.maxLength` check and fall-through of `validateArray`. -/
def arrayMaxCheck (xs : List JsValue) (fieldName : String) (mx : Option JSNum) : Except JsErrorValue JsValue :=
  match mx with
  | some m =>
      if JSNum.gtJS (.fin (xs.length : ℚ)) m then
        .error (mkValidationError (fieldName ++ " must contain at most " ++ m.render ++ " items"))
      else .ok (.arr xs)
  | none => .ok (.arr xs)

/-- Embedding of `validateArray(value, fieldName, constraints?)`: throws if
`!Array.isArray(value)`, then checks `constraints?.minLength` and
`constraints?.maxLength` in order (both skipped when the whole constraints
argument is absent), returning the array unchanged when the checks pass. -/
def validateArray (value : JsValue) (fieldName : String) (c : Option ArrayConstraints) : Except JsErrorValue JsValue :=
  match value with
  | .arr xs =>
      match c with
      | some cc =>
          match cc.minLength with
          | some m =>
              if JSNum.ltJS (.fin (xs.length : ℚ)) m then
                .error (mkValidationError
                  (fieldName ++ " must contain at least " ++ m.render ++ " items"))
              else arrayMaxCheck xs fieldName cc.maxLength
          | none => arrayMaxCheck xs fieldName cc.maxLength
      | none => arrayMaxCheck xs fieldName none
  | _ => .error (mkValidationError (fieldName ++ " must be an array"))

/-! Response envelope (`src/types/api.ts`) -/

/-- The `ApiResponse<T>` object shape, with `Option` marking the fields a
given construction leaves absent (`none` = the property is not present). -/
structure ApiResponse (T : Type) where
  success : Bool
  data : Option T
  error : Option String
  code : Option String
deriving DecidableEq

/-- Embedding of `successResponse(data)`: returns `{ success: true, data }`. -/
def successResponse {T : Type} (data : T) : ApiResponse T :=
  ⟨true, some data, none, none⟩

/-- Embedding of `errorResponse(error, code?)`: returns `{ success: false, error, code }`. -/
def errorResponse {T : Type} (error : String) (code : Option String) : ApiResponse T :=
  ⟨false, none, some error, code⟩

/-! Lemmas about the character operations -/

/-- Either `jsLowerChar` fixes a character, or the character is the
upper-case half of one of the 26 case pairs. -/
lemma jsLowerChar_eq (c : Char) :
    jsLowerChar c = c ∨ ∃ p, p ∈ lowerPairs ∧ c = p.1 ∧ jsLowerChar c = p.2 := by
  unfold jsLowerChar
  cases hf : lowerPairs.find? (fun p => p.1 == c) with
  | none => left; rfl
  | some p =>
      right
      refine ⟨p, List.mem_of_find?_eq_some hf, ?_, rfl⟩
      have hb := @List.find?_some _ (fun q => q.1 == c) p _ hf
      exact (eq_of_beq hb).symm

/-- Lower-casing preserves whitespace-ness, being '@', being '.', and is
idempotent. -/
lemma jsLowerChar_props (c : Char) :
    jsWs (jsLowerChar c) = jsWs c ∧ (jsLowerChar c == '@') = (c == '@') ∧
    (jsLowerChar c == '.') = (c == '.') ∧ jsLowerChar (jsLowerChar c) = jsLowerChar c := by
  rcases jsLowerChar_eq c with h | ⟨p, hp, hc, hl⟩
  · refine ⟨?_, ?_, ?_, ?_⟩ <;> simp only [h]
  · subst hc
    fin_cases hp <;> refine ⟨?_, ?_, ?_, ?_⟩ <;> simp only [hl] <;> decide

lemma jsWs_jsLowerChar (c : Char) : jsWs (jsLowerChar c) = jsWs c :=
  (jsLowerChar_props c).1

lemma beq_at_jsLowerChar (c : Char) : (jsLowerChar c == '@') = (c == '@') :=
  (jsLowerChar_props c).2.1

lemma beq_dot_jsLowerChar (c : Char) : (jsLowerChar c == '.') = (c == '.') :=
  (jsLowerChar_props c).2.2.1

lemma jsLowerChar_idem (c : Char) : jsLowerChar (jsLowerChar c) = jsLowerChar c :=
  (jsLowerChar_props c).2.2.2

lemma atomChar_jsLowerChar (c : Char) : atomChar (jsLowerChar c) = atomChar c := by
  unfold atomChar
  rw [jsWs_jsLowerChar, beq_at_jsLowerChar]

/-! Lemmas about the email matcher -/

lemma isEmpty_map_jsLowerChar (l : List Char) :
    (l.map jsLowerChar).isEmpty = l.isEmpty := by
  cases l <;> rfl

lemma innerDotAux_map (l : List Char) :
    innerDotAux (l.map jsLowerChar) = innerDotAux l := by
  induction l with
  | nil => rfl
  | cons c cs ih =>
      simp only [List.map_cons, innerDotAux, beq_dot_jsLowerChar,
        isEmpty_map_jsLowerChar, ih]

lemma innerDot_map (l : List Char) :
    innerDot (l.map jsLowerChar) = innerDot l := by
  cases l with
  | nil => rfl
  | cons c cs => simp only [List.map_cons, innerDot, innerDotAux_map]

lemma all_atomChar_map (l : List Char) :
    (l.map jsLowerChar).all atomChar = l.all atomChar := by
  induction l with
  | nil => rfl
  | cons c cs ih =>
      simp only [List.map_cons, List.all_cons, atomChar_jsLowerChar, ih]

lemma emailDomain_map (l : List Char) :
    emailDomain (l.map jsLowerChar) = emailDomain l := by
  unfold emailDomain
  rw [all_atomChar_map, innerDot_map]

lemma emailLocalTail_map (l : List Char) :
    emailLocalTail (l.map jsLowerChar) = emailLocalTail l := by
  induction l with
  | nil => rfl
  | cons c cs ih =>
      simp only [List.map_cons, emailLocalTail, beq_at_jsLowerChar,
        emailDomain_map, atomChar_jsLowerChar, ih]

lemma emailMatchList_map (l : List Char) :
    emailMatchList (l.map jsLowerChar) = emailMatchList l := by
  cases l with
  | nil => rfl
  | cons c cs =>
      simp only [List.map_cons, emailMatchList, atomChar_jsLowerChar,
        emailLocalTail_map]

lemma atomChar_nows {c : Char} (h : atomChar c = true) : jsWs c = false := by
  simp only [atomChar, Bool.and_eq_true, Bool.not_eq_true'] at h
  exact h.1

lemma all_nows_of_all_atom {l : List Char} (h : l.all atomChar = true) :
    l.all (fun c => !jsWs c) = true := by
  simp only [List.all_eq_true] at h ⊢
  intro c hc
  simp only [Bool.not_eq_true', atomChar_nows (h c hc)]

lemma emailDomain_nows {l : List Char} (h : emailDomain l = true) :
    l.all (fun c => !jsWs c) = true := by
  simp only [emailDomain, Bool.and_eq_true] at h
  exact all_nows_of_all_atom h.1

lemma emailLocalTail_nows {l : List Char} (h : emailLocalTail l = true) :
    l.all (fun c => !jsWs c) = true := by
  induction l with
  | nil => exact absurd h (by simp [emailLocalTail])
  | cons c cs ih =>
      simp only [emailLocalTail] at h
      split at h
      · rename_i hq
        have hcl : c = '@' := eq_of_beq hq
        subst hcl
        simp only [List.all_cons, emailDomain_nows h, Bool.and_true]
        decide
      · simp only [Bool.and_eq_true] at h
        simp only [List.all_cons, ih h.2, Bool.and_true, Bool.not_eq_true',
          atomChar_nows h.1]

lemma emailMatchList_nows {l : List Char} (h : emailMatchList l = true) :
    l.all (fun c => !jsWs c) = true := by
  cases l with
  | nil => exact absurd h (by simp [emailMatchList])
  | cons c cs =>
      simp only [emailMatchList, Bool.and_eq_true] at h
      simp only [List.all_cons, emailLocalTail_nows h.2, Bool.and_true,
        Bool.not_eq_true', atomChar_nows h.1]

/-! Lemmas about trim and lower-casing -/

lemma dropWhile_jsWs_of_nows {l : List Char} (h : l.all (fun c => !jsWs c) = true) :
    l.dropWhile jsWs = l := by
  cases l with
  | nil => rfl
  | cons c cs =>
      simp only [List.all_cons, Bool.and_eq_true, Bool.not_eq_true'] at h
      simp [List.dropWhile_cons, h.1]

lemma jsTrimList_of_nows {l : List Char} (h : l.all (fun c => !jsWs c) = true) :
    jsTrimList l = l := by
  have hr : l.reverse.all (fun c => !jsWs c) = true := by
    simp only [List.all_eq_true] at h ⊢
    intro c hc
    exact h c (List.mem_reverse.mp hc)
  unfold jsTrimList
  rw [dropWhile_jsWs_of_nows h, dropWhile_jsWs_of_nows hr, List.reverse_reverse]

lemma map_jsLowerChar_idem (l : List Char) :
    (l.map jsLowerChar).map jsLowerChar = l.map jsLowerChar := by
  induction l with
  | nil => rfl
  | cons c cs ih => simp only [List.map_cons, jsLowerChar_idem, ih]

lemma jsLower_idem (s : String) : jsLower (jsLower s) = jsLower s := by
  show String.mk ((s.toList.map jsLowerChar).map jsLowerChar) = String.mk (s.toList.map jsLowerChar)
  rw [map_jsLowerChar_idem]

lemma emailRegexTest_jsLower (s : String) :
    emailRegexTest (jsLower s) = emailRegexTest s := by
  show emailMatchList (s.toList.map jsLowerChar) = emailMatchList s.toList
  rw [emailMatchList_map]

/-- On a string the email regex accepts, lower-casing leaves no whitespace
to strip, so the returned value is exactly the lower-cased input. -/
lemma jsTrim_jsLower_of_match {s : String} (h : emailRegexTest s = true) :
    jsTrim (jsLower s) = jsLower s := by
  have hm : emailMatchList (s.toList.map jsLowerChar) = true := by
    rw [emailMatchList_map]; exact h
  show String.mk (jsTrimList (s.toList.map jsLowerChar)) = String.mk (s.toList.map jsLowerChar)
  rw [jsTrimList_of_nows (emailMatchList_nows hm)]

lemma validateEmail_ok_of_match {s : String} (h : emailRegexTest s = true) :
    validateEmail (.str s) = .ok (.str (jsLower s)) := by
  show (if emailRegexTest s then Except.ok (JsValue.str (jsTrim (jsLower s)))
      else Except.error (mkValidationError "Invalid email format")) =
    Except.ok (JsValue.str (jsLower s))
  rw [if_pos h, jsTrim_jsLower_of_match h]

/-! Error-kind and result-shape lemmas for the validation helpers -/

/-- Every failure of the result is a `ValidationError` instance: the only
error kind a validation helper may produce. -/
def onlyValidationError (r : Except JsErrorValue JsValue) : Prop :=
  ∀ e, r = .error e → ∃ m, e = mkValidationError m

lemma validateRequired_onlyV (v : JsValue) (f : String) :
    onlyValidationError (validateRequired v f) := by
  intro e h
  unfold validateRequired at h
  split at h
  · exact Except.noConfusion h
  · injection h with h1
    exact ⟨_, h1.symm⟩

lemma validateEmail_onlyV (v : JsValue) :
    onlyValidationError (validateEmail v) := by
  intro e h
  unfold validateEmail at h
  repeat' split at h
  all_goals
    first
      | exact Except.noConfusion h
      | (injection h with h1; exact ⟨_, h1.symm⟩)

lemma validateUrl_onlyV (v : JsValue) :
    onlyValidationError (validateUrl v) := by
  intro e h
  unfold validateUrl at h
  repeat' split at h
  all_goals
    first
      | exact Except.noConfusion h
      | (injection h with h1; exact ⟨_, h1.symm⟩)

lemma validateStringLength_onlyV (v : JsValue) (f : String) (c : RangeConstraints) :
    onlyValidationError (validateStringLength v f c) := by
  intro e h
  unfold validateStringLength stringLengthMaxCheck at h
  repeat' split at h
  all_goals
    first
      | exact Except.noConfusion h
      | (injection h with h1; exact ⟨_, h1.symm⟩)

lemma validateNumberRange_onlyV (v : JsValue) (f : String) (c : RangeConstraints) :
    onlyValidationError (validateNumberRange v f c) := by
  intro e h
  unfold validateNumberRange numberMaxCheck at h
  repeat' split at h
  all_goals
    first
      | exact Except.noConfusion h
      | (injection h with h1; exact ⟨_, h1.symm⟩)

lemma validateEnum_onlyV (v : JsValue) (f : String) (a : List String) :
    onlyValidationError (validateEnum v f a) := by
  intro e h
  unfold validateEnum at h
  repeat' split at h
  all_goals
    first
      | exact Except.noConfusion h
      | (injection h with h1; exact ⟨_, h1.symm⟩)

lemma validateArray_onlyV (v : JsValue) (f : String) (c : Option ArrayConstraints) :
    onlyValidationError (validateArray v f c) := by
  intro e h
  unfold validateArray arrayMaxCheck at h
  repeat' split at h
  all_goals
    first
      | exact Except.noConfusion h
      | (injection h with h1; exact ⟨_, h1.symm⟩)

lemma validateRequired_ok_eq {v y : JsValue} {f : String}
    (h : validateRequired v f = .ok y) : y = v := by
  unfold validateRequired at h
  split at h
  · injection h with h1
    exact h1.symm
  · exact Except.noConfusion h

lemma validateUrl_ok_eq {v y : JsValue} (h : validateUrl v = .ok y) : y = v := by
  unfold validateUrl at h
  repeat' split at h
  all_goals
    first
      | exact Except.noConfusion h
      | (injection h with h1; exact h1.symm)

lemma validateStringLength_ok_eq {v y : JsValue} {f : String} {c : RangeConstraints}
    (h : validateStringLength v f c = .ok y) : y = v := by
  unfold validateStringLength stringLengthMaxCheck at h
  repeat' split at h
  all_goals
    first
      | exact Except.noConfusion h
      | (injection h with h1; exact h1.symm)

lemma validateNumberRange_ok_eq {v y : JsValue} {f : String} {c : RangeConstraints}
    (h : validateNumberRange v f c = .ok y) : y = v := by
  unfold validateNumberRange numberMaxCheck at h
  repeat' split at h
  all_goals
    first
      | exact Except.noConfusion h
      | (injection h with h1; exact h1.symm)

lemma validateEnum_ok_eq {v y : JsValue} {f : String} {a : List String}
    (h : validateEnum v f a = .ok y) : y = v := by
  unfold validateEnum at h
  repeat' split at h
  all_goals
    first
      | exact Except.noConfusion h
      | (injection h with h1; exact h1.symm)

lemma validateArray_ok_eq {v y : JsValue} {f : String} {c : Option ArrayConstraints}
    (h : validateArray v f c = .ok y) : y = v := by
  unfold validateArray arrayMaxCheck at h
  repeat' split at h
  all_goals
    first
      | exact Except.noConfusion h
      | (injection h with h1; exact h1.symm)

/-! The claims -/

/-- Claim C4: each concrete error kind fixes its own `code`/`statusCode`
pair — ValidationError (VALIDATION_ERROR, 400), UnauthorizedError
(UNAUTHORIZED, 401), ForbiddenError (FORBIDDEN, 403), NotFoundError
(NOT_FOUND, 404), ConflictError (CONFLICT, 409) — for every constructor
argument, so callers never choose them; and `NotFoundError(resource)`
synthesizes its message as `resource ++ " not found"`. -/
theorem error_kinds_fix_code_and_status :
    (∀ m, (mkValidationError m).code = some "VALIDATION_ERROR" ∧
      (mkValidationError m).statusCode = some 400) ∧
    (∀ m, (mkUnauthorizedError m).code = some "UNAUTHORIZED" ∧
      (mkUnauthorizedError m).statusCode = some 401) ∧
    (∀ m, (mkForbiddenError m).code = some "FORBIDDEN" ∧
      (mkForbiddenError m).statusCode = some 403) ∧
    (∀ r, (mkNotFoundError r).code = some "NOT_FOUND" ∧
      (mkNotFoundError r).statusCode = some 404 ∧
      (mkNotFoundError r).message = r ++ " not found") ∧
    (∀ m, (mkConflictError m).code = some "CONFLICT" ∧
      (mkConflictError m).statusCode = some 409) :=
  ⟨fun _ => ⟨rfl, rfl⟩, fun _ => ⟨rfl, rfl⟩, fun _ => ⟨rfl, rfl⟩,
   fun _ => ⟨rfl, rfl, rfl⟩, fun _ => ⟨rfl, rfl⟩⟩

/-- Claim C5: `validateRequired(value, fieldName)` raises
`ValidationError(fieldName ++ " is required")` exactly on the null and
undefined sentinels, returns every other value itself, and in particular
passes the falsy-but-present `0`. -/
theorem validateRequired_correct :
    (∀ f, validateRequired .nullV f = .error (mkValidationError (f ++ " is required"))) ∧
    (∀ f, validateRequired .undef f = .error (mkValidationError (f ++ " is required"))) ∧
    (∀ v f, v ≠ .nullV → v ≠ .undef → validateRequired v f = .ok v) ∧
    validateRequired (.num (.fin 0)) "x" = .ok (.num (.fin 0)) := by
  refine ⟨fun f => rfl, fun f => rfl, ?_, rfl⟩
  intro v f h1 h2
  have hv : isNotNull v = true := by
    cases v <;> first | rfl | exact absurd rfl h1 | exact absurd rfl h2
  unfold validateRequired
  rw [if_pos hv]

/-- Claim C7: the response envelope constructors build exactly the two
`ApiResponse` shapes — `successResponse(d)` is `{success: true, data: d}`
with no `error`/`code` field, `errorResponse(m, c)` is
`{success: false, error: m, code: c}` with no `data` field — including the
concrete examples `successResponse(42)` and `errorResponse("bad", "X")`. -/
theorem response_envelope_correct :
    (∀ (T : Type) (d : T), successResponse d = ⟨true, some d, none, none⟩) ∧
    (∀ (T : Type) (m : String) (c : Option String),
      @errorResponse T m c = ⟨false, none, some m, c⟩) ∧
    successResponse (42 : Nat) = ⟨true, some 42, none, none⟩ ∧
    @errorResponse Nat "bad" (some "X") = ⟨false, none, some "bad", some "X"⟩ :=
  ⟨fun _ _ => rfl, fun _ _ _ => rfl, rfl, rfl⟩

/-- Claim C8: `isAppError` returns true on every instance of the error
taxonomy (the base `AppError` construction and its five concrete kinds)
and false on everything else, in particular on a plain host `Error`. -/
theorem isAppError_correct :
    (∀ m, isAppError (.errVal (mkValidationError m)) = true) ∧
    (∀ r, isAppError (.errVal (mkNotFoundError r)) = true) ∧
    (∀ m, isAppError (.errVal (mkUnauthorizedError m)) = true) ∧
    (∀ m, isAppError (.errVal (mkForbiddenError m)) = true) ∧
    (∀ m, isAppError (.errVal (mkConflictError m)) = true) ∧
    (∀ m c s, isAppError (.errVal (mkAppError m c s)) = true) ∧
    (∀ m, isAppError (.errVal (mkError m)) = false) ∧
    (∀ v, isAppError v = true ↔ ∃ e, v = .errVal e ∧ e.cls ≠ ErrorClass.error) := by
  refine ⟨fun _ => rfl, fun _ => rfl, fun _ => rfl, fun _ => rfl, fun _ => rfl,
    fun _ _ _ => rfl, fun _ => rfl, ?_⟩
  intro v
  cases v with
  | errVal e =>
      obtain ⟨cls, nm, msg, cd, st⟩ := e
      cases cls <;> simp [isAppError, ErrorClass.extendsAppError]
  | nullV => simp [isAppError]
  | undef => simp [isAppError]
  | bool b => simp [isAppError]
  | num n => simp [isAppError]
  | str s => simp [isAppError]
  | arr xs => simp [isAppError]
  | obj fs => simp [isAppError]

/-- Claim C9: `isNotNull` holds exactly off the null/undefined sentinels,
`isDefined` holds exactly off undefined (so the null sentinel passes), and
`isNumber` holds exactly on numerically-typed values other than the NaN
sentinel. -/
theorem guards_correct :
    (∀ v, isNotNull v = true ↔ (v ≠ .nullV ∧ v ≠ .undef)) ∧
    (∀ v, isDefined v = true ↔ v ≠ .undef) ∧
    isDefined .nullV = true ∧
    (∀ v, isNumber v = true ↔ ∃ n, v = .num n ∧ n ≠ JSNum.nan) ∧
    isNumber (.num .nan) = false := by
  refine ⟨?_, ?_, rfl, ?_, rfl⟩
  · intro v
    cases v <;> simp [isNotNull]
  · intro v
    cases v <;> simp [isDefined]
  · intro v
    cases v with
    | num n => cases n <;> simp [isNumber, JSNum.isNaN]
    | nullV => simp [isNumber]
    | undef => simp [isNumber]
    | bool b => simp [isNumber]
    | str s => simp [isNumber]
    | arr xs => simp [isNumber]
    | obj fs => simp [isNumber]
    | errVal e => simp [isNumber]

/-- Claim C10: constructed with no message argument, `UnauthorizedError`
defaults its message to "Unauthorized" (code UNAUTHORIZED, status 401) and
`ForbiddenError` defaults its message to "Forbidden" (code FORBIDDEN,
status 403). -/
theorem default_messages_unauthorized_forbidden :
    (mkUnauthorizedError none).message = "Unauthorized" ∧
    (mkUnauthorizedError none).code = some "UNAUTHORIZED" ∧
    (mkUnauthorizedError none).statusCode = some 401 ∧
    (mkForbiddenError none).message = "Forbidden" ∧
    (mkForbiddenError none).code = some "FORBIDDEN" ∧
    (mkForbiddenError none).statusCode = some 403 :=
  ⟨rfl, rfl, rfl, rfl, rfl, rfl⟩

/-- Claim C1, counterexample: on the spec's own example input
`"USER@Example.com "` (trailing space) the code raises
`ValidationError("Invalid email format")` — the regex class `[^\s@]`
rejects whitespace — instead of returning `"user@example.com"` as the
claim states. -/
theorem validateEmail_trailing_space_counterexample :
    validateEmail (.str "USER@Example.com ") =
      .error (mkValidationError "Invalid email format") ∧
    validateEmail (.str "USER@Example.com ") ≠ .ok (.str "user@example.com") := by
  refine ⟨rfl, fun hc => ?_⟩
  rw [show validateEmail (.str "USER@Example.com ") =
      .error (mkValidationError "Invalid email format") from rfl] at hc
  exact Except.noConfusion hc

/-- Claim C1, amended: `validateEmail` raises
`ValidationError("Email must be a string")` on non-string input and
`ValidationError("Invalid email format")` on a string the regex rejects;
on an accepted string it returns the input lower-cased (the trailing
`trim()` is a no-op because the regex excludes all whitespace, so a string
with leading/trailing whitespace is rejected, not trimmed); in particular
`validateEmail("USER@Example.com")` — without the trailing space — returns
`"user@example.com"`. -/
theorem validateEmail_correct :
    (∀ v : JsValue, isString v = false →
      validateEmail v = .error (mkValidationError "Email must be a string")) ∧
    (∀ s : String, emailRegexTest s = false →
      validateEmail (.str s) = .error (mkValidationError "Invalid email format")) ∧
    (∀ s : String, emailRegexTest s = true →
      validateEmail (.str s) = .ok (.str (jsLower s))) ∧
    validateEmail (.str "USER@Example.com") = .ok (.str "user@example.com") := by
  refine ⟨?_, ?_, fun s h => validateEmail_ok_of_match h, rfl⟩
  · intro v h
    cases v <;> first | rfl | simp [isString] at h
  · intro s h
    show (if emailRegexTest s then Except.ok (JsValue.str (jsTrim (jsLower s)))
        else Except.error (mkValidationError "Invalid email format")) =
      Except.error (mkValidationError "Invalid email format")
    rw [if_neg (by simp [h])]

/-- Claim C2: every validation helper, on every input, either returns a
value or raises an error that is a `ValidationError` instance — never any
other error kind. -/
theorem validators_raise_only_validation_errors :
    (∀ v f, onlyValidationError (validateRequired v f)) ∧
    (∀ v, onlyValidationError (validateEmail v)) ∧
    (∀ v, onlyValidationError (validateUrl v)) ∧
    (∀ v f c, onlyValidationError (validateStringLength v f c)) ∧
    (∀ v f c, onlyValidationError (validateNumberRange v f c)) ∧
    (∀ v f a, onlyValidationError (validateEnum v f a)) ∧
    (∀ v f c, onlyValidationError (validateArray v f c)) :=
  ⟨validateRequired_onlyV, validateEmail_onlyV, validateUrl_onlyV,
   validateStringLength_onlyV, validateNumberRange_onlyV, validateEnum_onlyV,
   validateArray_onlyV⟩

/-- Claim C3, counterexample: `validateNumberRange(Infinity, "x", {})`
returns Infinity unchanged and raises nothing, although Infinity is not a
finite number — the code's type check rejects only NaN, not the
infinities. -/
theorem validateNumberRange_accepts_infinity :
    validateNumberRange (.num .posInf) "x" ⟨none, none⟩ = .ok (.num .posInf) ∧
    ∀ e, validateNumberRange (.num .posInf) "x" ⟨none, none⟩ ≠ .error e := by
  refine ⟨rfl, fun e hc => ?_⟩
  rw [show validateNumberRange (.num .posInf) "x" ⟨none, none⟩ =
      .ok (.num .posInf) from rfl] at hc
  exact Except.noConfusion hc

/-- Claim C3, amended: `validateNumberRange` raises
`ValidationError(fieldName ++ " must be a number")` exactly when the value
is not numerically typed or is the NaN sentinel (the infinities pass the
type check), raises a ValidationError when a specified min bound
(`value < min`) or max bound (`value > max`) is violated (min checked
first), and otherwise returns the number unchanged — in particular
Infinity with no bounds is returned unchanged. -/
theorem validateNumberRange_correct :
    (∀ v f c, isNumber v = false →
      validateNumberRange v f c = .error (mkValidationError (f ++ " must be a number"))) ∧
    (∀ n f c mn, n ≠ JSNum.nan → c.min = some mn → JSNum.ltJS n mn = true →
      validateNumberRange (.num n) f c =
        .error (mkValidationError (f ++ " must be at least " ++ mn.render))) ∧
    (∀ n f c mx, n ≠ JSNum.nan →
      (∀ mn, c.min = some mn → JSNum.ltJS n mn = false) →
      c.max = some mx → JSNum.gtJS n mx = true →
      validateNumberRange (.num n) f c =
        .error (mkValidationError (f ++ " must be at most " ++ mx.render))) ∧
    (∀ n f c, n ≠ JSNum.nan →
      (∀ mn, c.min = some mn → JSNum.ltJS n mn = false) →
      (∀ mx, c.max = some mx → JSNum.gtJS n mx = false) →
      validateNumberRange (.num n) f c = .ok (.num n)) ∧
    validateNumberRange (.num .nan) "x" ⟨none, none⟩ =
      .error (mkValidationError "x must be a number") ∧
    validateNumberRange (.num .posInf) "x" ⟨none, some (.fin 10)⟩ =
      .error (mkValidationError "x must be at most 10") := by
  refine ⟨?_, ?_, ?_, ?_, rfl, rfl⟩
  · intro v f c h
    cases v <;> try rfl
    rename_i n
    cases n with
    | nan => rfl
    | posInf => simp [isNumber, JSNum.isNaN] at h
    | negInf => simp [isNumber, JSNum.isNaN] at h
    | fin q => simp [isNumber, JSNum.isNaN] at h
  · intro n f c mn hn hmin hlt
    obtain ⟨cmin, cmax⟩ := c
    have hm : cmin = some mn := hmin
    subst hm
    have hnan : n.isNaN = false := by cases n <;> simp_all [JSNum.isNaN]
    simp [validateNumberRange, hnan, hlt]
  · intro n f c mx hn hmins hmax hgt
    obtain ⟨cmin, cmax⟩ := c
    have hmx : cmax = some mx := hmax
    subst hmx
    have hnan : n.isNaN = false := by cases n <;> simp_all [JSNum.isNaN]
    cases cmin with
    | none => simp [validateNumberRange, hnan, numberMaxCheck, hgt]
    | some m2 =>
        have hlt := hmins m2 rfl
        simp [validateNumberRange, hnan, hlt, numberMaxCheck, hgt]
  · intro n f c hn hmins hmaxs
    obtain ⟨cmin, cmax⟩ := c
    have hnan : n.isNaN = false := by cases n <;> simp_all [JSNum.isNaN]
    cases cmin with
    | none =>
        cases cmax with
        | none => simp [validateNumberRange, hnan, numberMaxCheck]
        | some m2 =>
            have hg := hmaxs m2 rfl
            simp [validateNumberRange, hnan, numberMaxCheck, hg]
    | some m1 =>
        have hl := hmins m1 rfl
        cases cmax with
        | none => simp [validateNumberRange, hnan, hl, numberMaxCheck]
        | some m2 =>
            have hg := hmaxs m2 rfl
            simp [validateNumberRange, hnan, hl, numberMaxCheck, hg]

/-- Claim C6: every validation helper is idempotent on its own successful
output: when a helper succeeds with result `y`, running the same helper
with the same field name and constraints on `y` succeeds and returns `y`
unchanged; in particular the validateEmail composition on a concrete
accepted input. -/
theorem validators_idempotent :
    (∀ v f y, validateRequired v f = .ok y → validateRequired y f = .ok y) ∧
    (∀ v y, validateEmail v = .ok y → validateEmail y = .ok y) ∧
    (∀ v y, validateUrl v = .ok y → validateUrl y = .ok y) ∧
    (∀ v f c y, validateStringLength v f c = .ok y → validateStringLength y f c = .ok y) ∧
    (∀ v f c y, validateNumberRange v f c = .ok y → validateNumberRange y f c = .ok y) ∧
    (∀ v f a y, validateEnum v f a = .ok y → validateEnum y f a = .ok y) ∧
    (∀ v f c y, validateArray v f c = .ok y → validateArray y f c = .ok y) ∧
    validateEmail (.str "A@B.co") = .ok (.str "a@b.co") ∧
    validateEmail (.str "a@b.co") = .ok (.str "a@b.co") := by
  refine ⟨?_, ?_, ?_, ?_, ?_, ?_, ?_, rfl, rfl⟩
  · intro v f y h
    have hy := validateRequired_ok_eq h
    subst hy
    exact h
  · intro v y h
    unfold validateEmail at h
    split at h
    · rename_i s
      split at h
      · rename_i hq
        have hy : y = .str (jsLower s) := by
          rw [jsTrim_jsLower_of_match hq] at h
          injection h with h1
          exact h1.symm
        subst hy
        have hq2 : emailRegexTest (jsLower s) = true := by
          rw [emailRegexTest_jsLower]
          exact hq
        rw [validateEmail_ok_of_match hq2, jsLower_idem]
      · exact Except.noConfusion h
    · exact Except.noConfusion h
  · intro v y h
    have hy := validateUrl_ok_eq h
    subst hy
    exact h
  · intro v f c y h
    have hy := validateStringLength_ok_eq h
    subst hy
    exact h
  · intro v f c y h
    have hy := validateNumberRange_ok_eq h
    subst hy
    exact h
  · intro v f a y h
    have hy := validateEnum_ok_eq h
    subst hy
    exact h
  · intro v f c y h
    have hy := validateArray_ok_eq h
    subst hy
    exact h
